import Mathlib

/-!
# Verification of the `GA` UTM builder (`dist/models/GA.js`)

Shallow embedding of the `GA` class: a builder that turns one CSV row,
a UTM configuration and per-column validation rules into either a
composed Google-Analytics tracking URL or a structured per-parameter
error report.

JavaScript objects (the CSV row, the config, the rules, the internal
accumulator maps) are embedded as association lists `List (String × _)`
in insertion order; JS object-key uniqueness appears as `Nodup`
hypotheses on the key lists where a claim needs it.  `slice(0, -1)` is
embedded as dropping the last character, and absent properties as
`Option.none` (with JS string interpolation of `undefined` rendering as
the literal string "undefined").
-/

namespace GAModel

/-- JS `${x}` interpolation of a possibly-undefined string property. -/
def jsShow : Option String → String
  | none => "undefined"
  | some s => s

/-- Drop the final character of a string (JS `slice(0, -1)`);
the empty string is left unchanged. -/
def strDropLast (s : String) : String := ⟨s.data.dropLast⟩

/-- Concatenation of a list of strings in order. -/
def strJoin : List String → String
  | [] => ""
  | s :: rest => s ++ strJoin rest

/-- JS `Array.prototype.join(sep)`: interleave `sep` between elements. -/
def joinWith (sep : String) : List String → String
  | [] => ""
  | [s] => s
  | s :: r :: rest => s ++ sep ++ joinWith sep (r :: rest)

/-- Modelled from the spec: `StringUtils.normalize` is not under `src/`;
the spec describes it as case/diacritic-insensitive canonicalization of
a string, so each character is lowercased and stripped of its Latin
diacritic. -/
def normalizeChar (c : Char) : Char :=
  let l := c.toLower
  if l = 'á' ∨ l = 'à' ∨ l = 'â' ∨ l = 'ã' ∨ l = 'ä' then 'a'
  else if l = 'é' ∨ l = 'è' ∨ l = 'ê' ∨ l = 'ë' then 'e'
  else if l = 'í' ∨ l = 'ì' ∨ l = 'î' ∨ l = 'ï' then 'i'
  else if l = 'ó' ∨ l = 'ò' ∨ l = 'ô' ∨ l = 'õ' ∨ l = 'ö' then 'o'
  else if l = 'ú' ∨ l = 'ù' ∨ l = 'û' ∨ l = 'ü' then 'u'
  else if l = 'ç' then 'c'
  else l

/-- Modelled from the spec: `StringUtils.normalize`, applied
character-wise. -/
def normalize (s : String) : String := ⟨s.data.map normalizeChar⟩

/-- Modelled from the spec: `StringUtils.replaceWhiteSpace` replaces
every whitespace character of the string with the space-replacement
character. -/
def replaceWhiteSpace (s : String) (rep : Char) : String :=
  ⟨s.data.map (fun c => if c.isWhitespace then rep else c)⟩

/-- Modelled from the spec: a validation rule is an
implementation-defined predicate on the column's value, and
`StringUtils.validateString` applies it. -/
def validateString (s : String) (rule : String → Bool) : Bool := rule s

/-- Modelled from the spec: `AnalyticsTool._isEmpty` is not under
`src/`; the spec treats a value as missing when it is empty or absent
in the row. -/
def isEmptyValue : Option String → Bool
  | none => true
  | some s => s.isEmpty

/-- A CSV row: normalized column name → raw value, in insertion order. -/
abbrev CsvRow := List (String × String)

/-- UTM config: parameter name → ordered list of source column names. -/
abbrev UtmConfig := List (String × List String)

/-- Validation rules: normalized column name → predicate on the value. -/
abbrev ValidationRules := List (String × (String → Bool))

/-- The per-parameter mutable state of `GA`: the running value
accumulator `_utms[utm]` (before final normalization), the two error
flags and the two error-message accumulators. -/
structure UtmState where
  utmString : String
  hasUndef : Bool
  hasValid : Bool
  undefMsg : String
  validMsg : String
deriving Repr, DecidableEq

/-- The constructor's initialisation of the per-parameter state
(lines 9–20 of `GA.js`). -/
def initUtmState : UtmState :=
  { utmString := ""
    hasUndef := false
    hasValid := false
    undefMsg := "Parâmetros não encontrados:"
    validMsg := "Parâmetros incorretos:" }

/-- One iteration of the inner `forEach` of `GA._buildUtms`
(lines 69–89): look the column up under its normalized name, flag a
missing value (and skip the rest of the body via `return`), otherwise
flag a failed validation, and append the value plus the field
separator to the accumulator. -/
def processColumn (row : CsvRow) (rules : ValidationRules)
    (separator : String) (st : UtmState) (column : String) : UtmState :=
  let columnNormalized := normalize column
  let v := row.lookup columnNormalized
  if isEmptyValue v then
    { st with
      hasUndef := true
      undefMsg := st.undefMsg ++ " " ++ column ++ "," }
  else
    let value := v.getD ""
    let st1 :=
      match rules.lookup columnNormalized with
      | some rule =>
        if validateString value rule then st
        else
          { st with
            hasValid := true
            validMsg := st.validMsg ++ " " ++ column ++ "," }
      | none => st
    { st1 with utmString := st1.utmString ++ value ++ separator }

/-- The final per-parameter state plus the stored `_utms[utm]` value
(line 90–93): the accumulator normalized, with its trailing separator
character stripped, whitespace replaced. -/
structure UtmResult where
  value : String
  hasUndef : Bool
  hasValid : Bool
  undefMsg : String
  validMsg : String
deriving Repr, DecidableEq

/-- `GA._buildUtms` restricted to one parameter: fold the parameter's
columns through `processColumn` and post-process the accumulator. -/
def buildUtm (row : CsvRow) (rules : ValidationRules)
    (separator : String) (spaceSeparator : Char)
    (columns : List String) : UtmResult :=
  let st := columns.foldl (processColumn row rules separator) initUtmState
  { value := replaceWhiteSpace (strDropLast (normalize st.utmString)) spaceSeparator
    hasUndef := st.hasUndef
    hasValid := st.hasValid
    undefMsg := st.undefMsg
    validMsg := st.validMsg }

/-- `GA._buildUtms` (lines 65–95): process every configured parameter
independently, in config-key order. -/
def buildUtms (row : CsvRow) (config : UtmConfig)
    (rules : ValidationRules) (separator : String)
    (spaceSeparator : Char) : List (String × UtmResult) :=
  config.map (fun p => (p.1, buildUtm row rules separator spaceSeparator p.2))

/-- `GA._hasErrorAtUtm` (lines 24–29). -/
def hasErrorAtUtm (r : UtmResult) : Bool := r.hasUndef || r.hasValid

/-- `GA._errorMessageAtUtm` (lines 30–41): each present message with
its trailing separator character sliced off, joined by " - ". -/
def errorMessageAtUtm (r : UtmResult) : String :=
  joinWith " - "
    ((if r.hasUndef then [strDropLast r.undefMsg] else []) ++
     (if r.hasValid then [strDropLast r.validMsg] else []))

/-- `GA._hasAnyErrorAtUtms` (lines 42–50). -/
def hasAnyErrorAtUtms (utms : List (String × UtmResult)) : Bool :=
  utms.any (fun p => hasErrorAtUtm p.2)

/-- `GA._buildUrl` (lines 96–102): `param=value&` pairs in `_utms`
insertion order, trailing `&` sliced off, appended to `csvLine.url`
after a `?` (an absent `url` interpolates as "undefined"). -/
def buildUrl (row : CsvRow) (utms : List (String × UtmResult)) : String :=
  let utmString := utms.foldl (fun acc p => acc ++ p.1 ++ "=" ++ p.2.value ++ "&") ""
  jsShow (row.lookup "url") ++ "?" ++ strDropLast utmString

/-- The fixed correction sentinel of `GA.buildedFields` (line 61). -/
def sentinel : String := "Corrija os parâmetros para gerar a URL"

/-- The value of `buildedFields` (lines 51–64). -/
structure BuildResult where
  utms : List (String × String)
  urlGa : String
deriving Repr, DecidableEq

/-- The full state the `GA` constructor computes (lines 7–23):
per-parameter results plus the composed URL. -/
structure GAState where
  utmResults : List (String × UtmResult)
  url : String
deriving Repr, DecidableEq

/-- The `GA` constructor (lines 7–23): initialise the per-parameter
maps, run `_buildUtms`, then `_buildUrl`. -/
def construct (row : CsvRow) (config : UtmConfig)
    (rules : ValidationRules) (separator : String)
    (spaceSeparator : Char) : GAState :=
  let utms := buildUtms row config rules separator spaceSeparator
  { utmResults := utms, url := buildUrl row utms }

/-- The `buildedFields` getter (lines 51–64) read off a constructed
`GA` object. -/
def buildedFieldsOf (g : GAState) : BuildResult :=
  { utms := g.utmResults.map
      (fun p => (p.1, if hasErrorAtUtm p.2 then errorMessageAtUtm p.2 else p.2.value))
    urlGa := if hasAnyErrorAtUtms g.utmResults then sentinel else g.url }

/-- Constructing a `GA` and reading `buildedFields`, as one function. -/
def buildedFields (row : CsvRow) (config : UtmConfig)
    (rules : ValidationRules) (separator : String)
    (spaceSeparator : Char) : BuildResult :=
  buildedFieldsOf (construct row config rules separator spaceSeparator)

/-! ## Derived views used to state the claims -/

/-- The column's value is empty or absent in the row (step 2 of the
spec's algorithm). -/
def missingIn (row : CsvRow) (c : String) : Bool :=
  isEmptyValue (row.lookup (normalize c))

/-- The column's raw value in the row (empty string when absent). -/
def colValue (row : CsvRow) (c : String) : String :=
  (row.lookup (normalize c)).getD ""

/-- The column is present but fails its configured validation rule
(step 3 of the spec's algorithm). -/
def failsRule (row : CsvRow) (rules : ValidationRules) (c : String) : Bool :=
  !missingIn row c &&
    (match rules.lookup (normalize c) with
     | some rule => !validateString (colValue row c) rule
     | none => false)

end GAModel

namespace GAModel

/-- The ` col,` fragment appended to an error-message accumulator for
each offending column. -/
def tagged (c : String) : String := " " ++ c ++ ","

/-! ## String helper lemmas -/

theorem joinWith_nil (sep : String) : joinWith sep [] = "" := rfl

theorem joinWith_single (sep s : String) : joinWith sep [s] = s := rfl

theorem joinWith_cons₂ (sep s r : String) (rest : List String) :
    joinWith sep (s :: r :: rest) = s ++ sep ++ joinWith sep (r :: rest) := rfl

theorem strJoin_append (l₁ l₂ : List String) :
    strJoin (l₁ ++ l₂) = strJoin l₁ ++ strJoin l₂ := by
  induction l₁ with
  | nil => simp [strJoin, String.empty_append]
  | cons a l ih => simp [strJoin, ih, String.append_assoc]

theorem ne_empty_iff_data (s : String) : s ≠ "" ↔ s.data ≠ [] := by
  constructor
  · intro h hd
    exact h (String.ext hd)
  · intro h he
    exact h (by rw [he])

theorem append_comma_ne_empty (s : String) : s ++ "," ≠ "" := by
  rw [ne_empty_iff_data, String.data_append]
  simp

theorem strDropLast_append (s t : String) (h : t ≠ "") :
    strDropLast (s ++ t) = s ++ strDropLast t := by
  apply String.ext
  show (String.mk ((s ++ t).data.dropLast)).data = (s ++ strDropLast t).data
  rw [String.data_append, String.data_append]
  show ((s.data ++ t.data).dropLast) = s.data ++ t.data.dropLast
  exact List.dropLast_append_of_ne_nil s.data ((ne_empty_iff_data t).mp h)

theorem strDropLast_append_comma (s : String) :
    strDropLast (s ++ ",") = s := by
  rw [strDropLast_append s "," (by decide)]
  have h : strDropLast "," = "" := rfl
  rw [h, String.append_empty]

theorem strJoin_tagged_ne_empty (c : String) (l : List String) :
    strJoin ((c :: l).map tagged) ≠ "" := by
  show strJoin (tagged c :: l.map tagged) ≠ ""
  rw [ne_empty_iff_data]
  show (tagged c ++ strJoin (l.map tagged)).data ≠ []
  rw [String.data_append]
  simp [tagged, String.data_append]

/-! ## Case analysis of one column step -/

/-- A missing column only sets the undefined-parameter flag and
message; the validation state and the value accumulator are untouched
(the `return` on line 76 skips the rest of the loop body). -/
theorem processColumn_missing (row : CsvRow) (rules : ValidationRules)
    (sep : String) (st : UtmState) (c : String)
    (h : missingIn row c = true) :
    processColumn row rules sep st c =
      { st with hasUndef := true
                undefMsg := st.undefMsg ++ " " ++ c ++ "," } := by
  have h' : isEmptyValue (row.lookup (normalize c)) = true := h
  simp [processColumn, h']

/-- A present column that fails its rule sets the validation flag and
message AND still appends its value to the accumulator (there is no
early exit after line 87). -/
theorem processColumn_fails (row : CsvRow) (rules : ValidationRules)
    (sep : String) (st : UtmState) (c : String)
    (h : missingIn row c = false) (hf : failsRule row rules c = true) :
    processColumn row rules sep st c =
      { st with hasValid := true
                validMsg := st.validMsg ++ " " ++ c ++ ","
                utmString := st.utmString ++ colValue row c ++ sep } := by
  have h' : isEmptyValue (row.lookup (normalize c)) = false := h
  unfold failsRule at hf
  rw [h] at hf
  simp only [Bool.not_false, Bool.true_and] at hf
  cases hr : rules.lookup (normalize c) with
  | none => rw [hr] at hf; cases hf
  | some rule =>
    rw [hr] at hf
    simp only [Bool.not_eq_true'] at hf
    have hf' : validateString ((row.lookup (normalize c)).getD "") rule = false := hf
    simp [processColumn, h', hr, hf', colValue]

/-- A present column that passes (or has no rule) only appends its
value to the accumulator. -/
theorem processColumn_ok (row : CsvRow) (rules : ValidationRules)
    (sep : String) (st : UtmState) (c : String)
    (h : missingIn row c = false) (hf : failsRule row rules c = false) :
    processColumn row rules sep st c =
      { st with utmString := st.utmString ++ colValue row c ++ sep } := by
  have h' : isEmptyValue (row.lookup (normalize c)) = false := h
  unfold failsRule at hf
  rw [h] at hf
  simp only [Bool.not_false, Bool.true_and] at hf
  cases hr : rules.lookup (normalize c) with
  | none => simp [processColumn, h', hr, colValue]
  | some rule =>
    rw [hr] at hf
    have hf2 : validateString (colValue row c) rule = true := by
      simp at hf
      exact hf
    have hf' : validateString ((row.lookup (normalize c)).getD "") rule = true := hf2
    simp [processColumn, h', hr, hf', colValue]

/-! ## Characterization of the inner fold of `_buildUtms` -/

/-- The state after folding a parameter's columns through
`processColumn`: each accumulator of the state is the initial one
followed by the contributions of the columns, in order.  The value
accumulator receives every *present* column's value (validation plays
no part in it); the two error-message accumulators receive the tagged
display names of exactly the missing, respectively rule-failing,
columns. -/
theorem foldl_processColumn (row : CsvRow) (rules : ValidationRules)
    (sep : String) (cols : List String) (st : UtmState) :
    cols.foldl (processColumn row rules sep) st =
      { utmString := st.utmString ++
          strJoin (cols.map fun c => if missingIn row c then "" else colValue row c ++ sep)
        hasUndef := st.hasUndef || cols.any (missingIn row)
        hasValid := st.hasValid || cols.any (failsRule row rules)
        undefMsg := st.undefMsg ++ strJoin ((cols.filter (missingIn row)).map tagged)
        validMsg := st.validMsg ++ strJoin ((cols.filter (failsRule row rules)).map tagged) } := by
  induction cols generalizing st with
  | nil =>
    simp [strJoin, String.append_empty]
  | cons c cs ih =>
    rw [List.foldl_cons]
    by_cases hm : missingIn row c
    · have hf : failsRule row rules c = false := by
        simp [failsRule, hm]
      rw [processColumn_missing row rules sep st c hm, ih]
      simp [hm, hf, strJoin, tagged, String.append_assoc, UtmState.mk.injEq]
    · have hm' : missingIn row c = false := by simpa using hm
      by_cases hv : failsRule row rules c
      · rw [processColumn_fails row rules sep st c hm' hv, ih]
        simp [hm', hv, strJoin, tagged, String.append_assoc, UtmState.mk.injEq]
      · have hv' : failsRule row rules c = false := by simpa using hv
        rw [processColumn_ok row rules sep st c hm' hv', ih]
        simp [hm', hv', strJoin, tagged, String.append_assoc, UtmState.mk.injEq]

end GAModel

namespace GAModel

theorem append_ne_empty_right (s t : String) (h : t ≠ "") : s ++ t ≠ "" := by
  rw [ne_empty_iff_data, String.data_append]
  intro hd
  exact (ne_empty_iff_data t).mp h (List.append_eq_nil.mp hd).2

theorem append_ne_empty_left (s t : String) (h : s ≠ "") : s ++ t ≠ "" := by
  rw [ne_empty_iff_data, String.data_append]
  intro hd
  exact (ne_empty_iff_data s).mp h (List.append_eq_nil.mp hd).1

theorem strDropLast_append_last (s t : String) (h : t ≠ "")
    (hd : t.data.dropLast = []) : strDropLast (s ++ t) = s := by
  rw [strDropLast_append s t h]
  have ht : strDropLast t = "" := String.ext hd
  rw [ht, String.append_empty]

/-- `_buildUtms` for a single parameter, in closed form. -/
theorem buildUtm_eq (row : CsvRow) (rules : ValidationRules)
    (sep : String) (sp : Char) (cols : List String) :
    buildUtm row rules sep sp cols =
      { value := replaceWhiteSpace (strDropLast (normalize
            (strJoin (cols.map fun c =>
              if missingIn row c then "" else colValue row c ++ sep)))) sp
        hasUndef := cols.any (missingIn row)
        hasValid := cols.any (failsRule row rules)
        undefMsg := "Parâmetros não encontrados:" ++
            strJoin ((cols.filter (missingIn row)).map tagged)
        validMsg := "Parâmetros incorretos:" ++
            strJoin ((cols.filter (failsRule row rules)).map tagged) } := by
  unfold buildUtm
  rw [foldl_processColumn]
  simp [initUtmState, String.empty_append]

/-- The URL accumulator loop of `_buildUrl`, as a join. -/
theorem foldl_url (utms : List (String × UtmResult)) (acc : String) :
    utms.foldl (fun acc p => acc ++ p.1 ++ "=" ++ p.2.value ++ "&") acc =
      acc ++ strJoin (utms.map fun p => p.1 ++ "=" ++ p.2.value ++ "&") := by
  induction utms generalizing acc with
  | nil => simp [strJoin, String.append_empty]
  | cons q l ih =>
    rw [List.foldl_cons, ih]
    simp [strJoin, String.append_assoc]

/-- Stripping the trailing `&` from the concatenation of `x&` pieces
gives exactly the `&`-join of the pieces. -/
theorem strDropLast_join_amp (l : List String) :
    strDropLast (strJoin (l.map fun s => s ++ "&")) = joinWith "&" l := by
  induction l with
  | nil => decide
  | cons a rest ih =>
    cases rest with
    | nil =>
      simp only [List.map_cons, List.map_nil, strJoin, String.append_empty]
      show strDropLast (a ++ "&") = a
      exact strDropLast_append_last a "&" (by decide) rfl
    | cons b rest' =>
      have hne : strJoin ((b :: rest').map fun s => s ++ "&") ≠ "" := by
        simp only [List.map_cons, strJoin]
        exact append_ne_empty_left _ _ (append_ne_empty_right b "&" (by decide))
      have step : strDropLast (strJoin ((a :: b :: rest').map fun s => s ++ "&")) =
          (a ++ "&") ++ strDropLast (strJoin ((b :: rest').map fun s => s ++ "&")) := by
        simp only [List.map_cons, strJoin] at hne ⊢
        exact strDropLast_append _ _ hne
      rw [step, ih]
      show (a ++ "&") ++ joinWith "&" (b :: rest') = a ++ "&" ++ joinWith "&" (b :: rest')
      rw [String.append_assoc]

/-- Looking a key up in a per-entry image of an association list with
distinct keys finds that entry's image. -/
theorem lookup_keyed_map {β γ : Type} (l : List (String × β)) (g : String × β → γ)
    (hnd : (l.map Prod.fst).Nodup) (p : String × β) (hp : p ∈ l) :
    (l.map fun q => (q.1, g q)).lookup p.1 = some (g p) := by
  induction l with
  | nil => cases hp
  | cons q l ih =>
    rcases List.mem_cons.mp hp with rfl | hmem
    · show List.lookup p.1 ((p.1, g p) :: l.map fun q => (q.1, g q)) = some (g p)
      simp [List.lookup]
    · have hne : q.1 ≠ p.1 := by
        intro he
        have : p.1 ∈ l.map Prod.fst := List.mem_map_of_mem Prod.fst hmem
        rw [← he] at this
        exact (List.nodup_cons.mp hnd).1 this
      show List.lookup p.1 ((q.1, g q) :: l.map fun r => (r.1, g r)) = some (g p)
      have hbeq : (p.1 == q.1) = false := by
        simp [hne]
        exact fun he => absurd he.symm hne
      simp [List.lookup, hbeq]
      exact ih (List.nodup_cons.mp hnd).2 hmem

end GAModel

namespace GAModel

/-- `_buildUrl` in closed form: the `&`-join of the `param=value`
pairs, in `_utms` insertion order. -/
theorem buildUrl_eq (row : CsvRow) (utms : List (String × UtmResult)) :
    buildUrl row utms =
      jsShow (row.lookup "url") ++ "?" ++
        joinWith "&" (utms.map fun p => p.1 ++ "=" ++ p.2.value) := by
  show jsShow (row.lookup "url") ++ "?" ++
      strDropLast (utms.foldl (fun acc p => acc ++ p.1 ++ "=" ++ p.2.value ++ "&") "") = _
  rw [foldl_url, String.empty_append]
  have hmap : (utms.map fun p => p.1 ++ "=" ++ p.2.value ++ "&") =
      (utms.map fun p => p.1 ++ "=" ++ p.2.value).map (fun s => s ++ "&") := by
    rw [List.map_map]
    apply List.map_congr_left
    intro p _
    simp [String.append_assoc]
  rw [hmap, strDropLast_join_amp]

/-- `buildedFields`, unwound to a map over the config. -/
theorem buildedFields_eq (row : CsvRow) (config : UtmConfig)
    (rules : ValidationRules) (sep : String) (sp : Char) :
    buildedFields row config rules sep sp =
      { utms := config.map (fun p => (p.1,
          if hasErrorAtUtm (buildUtm row rules sep sp p.2)
          then errorMessageAtUtm (buildUtm row rules sep sp p.2)
          else (buildUtm row rules sep sp p.2).value))
        urlGa :=
          if config.any (fun p => hasErrorAtUtm (buildUtm row rules sep sp p.2))
          then sentinel
          else buildUrl row (buildUtms row config rules sep sp) } := by
  unfold buildedFields buildedFieldsOf construct hasAnyErrorAtUtms buildUtms
  simp only [List.map_map, Function.comp_def]
  have hc : ((config.map (fun p => (p.1, buildUtm row rules sep sp p.2))).any
        fun p => hasErrorAtUtm p.2) =
      config.any fun p => hasErrorAtUtm (buildUtm row rules sep sp p.2) := by
    induction config with
    | nil => rfl
    | cons q l ih => simp [List.any_cons, ih]
  rw [hc]

/-! ## Spec-side descriptions (the claims' wording) -/

/-- The spec's description of a parameter's composed value: the
field-separator-joined concatenation of the parameter's source-column
values in config order, normalized, trailing separator stripped,
whitespace replaced. -/
def specUtmValue (row : CsvRow) (sep : String) (sp : Char)
    (cols : List String) : String :=
  replaceWhiteSpace
    (strDropLast (normalize (strJoin (cols.map fun c => colValue row c ++ sep)))) sp

/-- The spec's description of the composed URL: `row.url`, `?`, and
the `param=value` pairs in config key order joined by `&`. -/
def specUrl (row : CsvRow) (pairs : List (String × String)) : String :=
  jsShow (row.lookup "url") ++ "?" ++
    joinWith "&" (pairs.map fun q => q.1 ++ "=" ++ q.2)

end GAModel

namespace GAModel

/-- A parameter all of whose columns are present and pass their rules
builds to its spec-side composed value with clean flags and pristine
messages. -/
theorem buildUtm_of_allOk (row : CsvRow) (rules : ValidationRules)
    (sep : String) (sp : Char) (cols : List String)
    (hok : ∀ c ∈ cols, missingIn row c = false ∧ failsRule row rules c = false) :
    buildUtm row rules sep sp cols =
      { value := specUtmValue row sep sp cols
        hasUndef := false
        hasValid := false
        undefMsg := "Parâmetros não encontrados:"
        validMsg := "Parâmetros incorretos:" } := by
  rw [buildUtm_eq]
  have h1 : cols.any (missingIn row) = false := by
    rw [List.any_eq_false]
    intro c hc
    simp [(hok c hc).1]
  have h2 : cols.any (failsRule row rules) = false := by
    rw [List.any_eq_false]
    intro c hc
    simp [(hok c hc).2]
  have h3 : cols.filter (missingIn row) = [] := by
    rw [List.filter_eq_nil_iff]
    intro c hc
    simp [(hok c hc).1]
  have h4 : cols.filter (failsRule row rules) = [] := by
    rw [List.filter_eq_nil_iff]
    intro c hc
    simp [(hok c hc).2]
  have h5 : (cols.map fun c => if missingIn row c then "" else colValue row c ++ sep) =
      cols.map fun c => colValue row c ++ sep := by
    apply List.map_congr_left
    intro c hc
    simp [(hok c hc).1]
  rw [h1, h2, h3, h4, h5]
  simp [specUtmValue, strJoin, String.append_empty]

/-- C1: for every CSV row, config and rules in which every configured
source column is present and its value passes its rule, each
parameter's `buildedFields.utms` entry equals the separator-joined,
normalized, whitespace-replaced concatenation of that parameter's
source-column values (trailing separator stripped), and `url ga`
equals `row.url` + `?` + the `param=value` pairs in config key order
joined by `&`. -/
theorem c1_clean_build_values_and_url (row : CsvRow) (config : UtmConfig)
    (rules : ValidationRules) (sep : String) (sp : Char)
    (hnd : (config.map Prod.fst).Nodup)
    (hok : ∀ p ∈ config, ∀ c ∈ p.2,
      missingIn row c = false ∧ failsRule row rules c = false) :
    (∀ p ∈ config,
        (buildedFields row config rules sep sp).utms.lookup p.1 =
          some (specUtmValue row sep sp p.2)) ∧
    (buildedFields row config rules sep sp).urlGa =
      specUrl row (config.map fun p => (p.1, specUtmValue row sep sp p.2)) := by
  have hval : ∀ p ∈ config, buildUtm row rules sep sp p.2 =
      { value := specUtmValue row sep sp p.2
        hasUndef := false
        hasValid := false
        undefMsg := "Parâmetros não encontrados:"
        validMsg := "Parâmetros incorretos:" } :=
    fun p hp => buildUtm_of_allOk row rules sep sp p.2 (hok p hp)
  have hany : (config.any fun p => hasErrorAtUtm (buildUtm row rules sep sp p.2)) = false := by
    rw [List.any_eq_false]
    intro p hp
    rw [hval p hp]
    simp [hasErrorAtUtm]
  constructor
  · intro p hp
    rw [buildedFields_eq]
    have hl := lookup_keyed_map config
      (fun q => if hasErrorAtUtm (buildUtm row rules sep sp q.2)
        then errorMessageAtUtm (buildUtm row rules sep sp q.2)
        else (buildUtm row rules sep sp q.2).value) hnd p hp
    rw [hl]
    simp [hval p hp, hasErrorAtUtm]
  · rw [buildedFields_eq]
    simp only [hany, Bool.false_eq_true, if_false]
    rw [buildUrl_eq]
    unfold buildUtms
    rw [List.map_map]
    unfold specUrl
    rw [List.map_map]
    have hm : ∀ p ∈ config,
        ((fun p : String × UtmResult => p.1 ++ "=" ++ p.2.value) ∘
          fun p : String × List String => (p.1, buildUtm row rules sep sp p.2)) p =
        ((fun q : String × String => q.1 ++ "=" ++ q.2) ∘
          fun p : String × List String => (p.1, specUtmValue row sep sp p.2)) p := by
      intro p hp
      simp only [Function.comp_def]
      rw [hval p hp]
    rw [List.map_congr_left hm]

end GAModel

namespace GAModel

theorem strJoin_cons (s : String) (rest : List String) :
    strJoin (s :: rest) = s ++ strJoin rest := rfl

/-- The undefined-parameter message (after its trailing comma is
sliced off) decomposes around any missing column's display name. -/
theorem undefMsg_decomp (row : CsvRow) (cols : List String) (col : String)
    (hc : col ∈ cols) (hmiss : missingIn row col = true) :
    ∃ a b, strDropLast ("Parâmetros não encontrados:" ++
        strJoin ((cols.filter (missingIn row)).map tagged)) = a ++ col ++ b ∧
      a ≠ "" := by
  have hcf : col ∈ cols.filter (missingIn row) := List.mem_filter.mpr ⟨hc, hmiss⟩
  obtain ⟨l1, l2, hsplit⟩ := List.append_of_mem hcf
  rw [hsplit, List.map_append, strJoin_append, List.map_cons, strJoin_cons]
  have key : "Parâmetros não encontrados:" ++
      (strJoin (l1.map tagged) ++ (tagged col ++ strJoin (l2.map tagged))) =
      ("Parâmetros não encontrados:" ++ strJoin (l1.map tagged) ++ " " ++ col) ++
        ("," ++ strJoin (l2.map tagged)) := by
    simp [tagged, String.append_assoc]
  rw [key, strDropLast_append _ _ (append_ne_empty_left "," _ (by decide))]
  refine ⟨"Parâmetros não encontrados:" ++ strJoin (l1.map tagged) ++ " ",
    strDropLast ("," ++ strJoin (l2.map tagged)), rfl, ?_⟩
  exact append_ne_empty_left _ _ (append_ne_empty_left _ _ (by decide))

/-- C2: a parameter with a missing source column reports a non-empty
error message containing that column's display name, and `url ga` is
the fixed correction sentinel. -/
theorem c2_missing_column_gives_error (row : CsvRow) (config : UtmConfig)
    (rules : ValidationRules) (sep : String) (sp : Char)
    (hnd : (config.map Prod.fst).Nodup)
    (p : String × List String) (hp : p ∈ config) (col : String)
    (hc : col ∈ p.2) (hmiss : missingIn row col = true) :
    (∃ msg, (buildedFields row config rules sep sp).utms.lookup p.1 = some msg ∧
        msg ≠ "" ∧ ∃ a b, msg = a ++ col ++ b) ∧
    (buildedFields row config rules sep sp).urlGa = sentinel := by
  have hundef : (buildUtm row rules sep sp p.2).hasUndef = true := by
    rw [buildUtm_eq]
    exact List.any_eq_true.mpr ⟨col, hc, hmiss⟩
  have herr : hasErrorAtUtm (buildUtm row rules sep sp p.2) = true := by
    simp [hasErrorAtUtm, hundef]
  have hdecomp : ∃ a b, strDropLast (buildUtm row rules sep sp p.2).undefMsg =
      a ++ col ++ b ∧ a ≠ "" := by
    rw [buildUtm_eq]
    exact undefMsg_decomp row p.2 col hc hmiss
  obtain ⟨a, b, hab, ha⟩ := hdecomp
  have hmsg : ∃ b', errorMessageAtUtm (buildUtm row rules sep sp p.2) =
      a ++ col ++ b' := by
    unfold errorMessageAtUtm
    rw [hundef]
    cases hv : (buildUtm row rules sep sp p.2).hasValid with
    | false =>
      simp only [if_true, if_false, List.append_nil, Bool.false_eq_true]
      refine ⟨b, ?_⟩
      rw [joinWith_single, hab]
    | true =>
      simp only [if_true]
      refine ⟨b ++ (" - " ++ strDropLast (buildUtm row rules sep sp p.2).validMsg), ?_⟩
      show joinWith " - " [strDropLast (buildUtm row rules sep sp p.2).undefMsg,
        strDropLast (buildUtm row rules sep sp p.2).validMsg] = _
      rw [joinWith_cons₂, joinWith_single, hab]
      simp [String.append_assoc]
  obtain ⟨b', hb'⟩ := hmsg
  constructor
  · refine ⟨errorMessageAtUtm (buildUtm row rules sep sp p.2), ?_, ?_, a, b', hb'⟩
    · rw [buildedFields_eq]
      have hl := lookup_keyed_map config
        (fun q => if hasErrorAtUtm (buildUtm row rules sep sp q.2)
          then errorMessageAtUtm (buildUtm row rules sep sp q.2)
          else (buildUtm row rules sep sp q.2).value) hnd p hp
      rw [hl]
      simp [herr]
    · rw [hb']
      rw [String.append_assoc]
      exact append_ne_empty_left _ _ ha
  · rw [buildedFields_eq]
    have hany : (config.any fun q => hasErrorAtUtm (buildUtm row rules sep sp q.2)) = true :=
      List.any_eq_true.mpr ⟨p, hp, herr⟩
    simp [hany]

end GAModel

namespace GAModel

/-- The spec's description of the undefined-parameter message: the
fixed prefix, the missing columns' display names each preceded by a
space and followed by a comma, with the trailing separator trimmed. -/
def specUndefMsg (row : CsvRow) (cols : List String) : String :=
  strDropLast ("Parâmetros não encontrados:" ++
    strJoin ((cols.filter (missingIn row)).map tagged))

/-- The spec's description of the validation message: the fixed
prefix, the rule-failing columns' display names each preceded by a
space and followed by a comma, with the trailing separator trimmed. -/
def specValidMsg (row : CsvRow) (rules : ValidationRules)
    (cols : List String) : String :=
  strDropLast ("Parâmetros incorretos:" ++
    strJoin ((cols.filter (failsRule row rules)).map tagged))

/-- C6: an erroneous parameter's output entry is the error message(s)
built from the offending columns' display names (comma-separated,
trailing separator trimmed), the undefined-parameter message first and
the validation message second, joined by " - " when both kinds are
present. -/
theorem c6_error_message_shape (row : CsvRow) (config : UtmConfig)
    (rules : ValidationRules) (sep : String) (sp : Char)
    (hnd : (config.map Prod.fst).Nodup)
    (p : String × List String) (hp : p ∈ config)
    (herr : hasErrorAtUtm (buildUtm row rules sep sp p.2) = true) :
    (buildedFields row config rules sep sp).utms.lookup p.1 =
      some (joinWith " - "
        ((if p.2.any (missingIn row) then [specUndefMsg row p.2] else []) ++
         (if p.2.any (failsRule row rules) then [specValidMsg row rules p.2] else []))) := by
  rw [buildedFields_eq]
  have hl := lookup_keyed_map config
    (fun q => if hasErrorAtUtm (buildUtm row rules sep sp q.2)
      then errorMessageAtUtm (buildUtm row rules sep sp q.2)
      else (buildUtm row rules sep sp q.2).value) hnd p hp
  rw [hl]
  simp only [herr, if_true]
  unfold errorMessageAtUtm
  rw [buildUtm_eq]
  rfl

/-- `_hasAnyErrorAtUtms` over the built parameters, folded back to the
config. -/
theorem hasAnyErrorAtUtms_buildUtms (row : CsvRow) (config : UtmConfig)
    (rules : ValidationRules) (sep : String) (sp : Char) :
    hasAnyErrorAtUtms (buildUtms row config rules sep sp) =
      config.any fun p => hasErrorAtUtm (buildUtm row rules sep sp p.2) := by
  unfold hasAnyErrorAtUtms buildUtms
  induction config with
  | nil => rfl
  | cons q l ih => simp [List.any_cons, ih]

/-- C4: every parameter's output entry is its composed value when it
has no error flag and the error message when it has one, and `url ga`
is the composed URL exactly when no parameter has any error, the
sentinel otherwise. -/
theorem c4_value_or_error_dichotomy (row : CsvRow) (config : UtmConfig)
    (rules : ValidationRules) (sep : String) (sp : Char)
    (hnd : (config.map Prod.fst).Nodup) :
    (∀ p ∈ config,
      (hasErrorAtUtm (buildUtm row rules sep sp p.2) = false →
        (buildedFields row config rules sep sp).utms.lookup p.1 =
          some (buildUtm row rules sep sp p.2).value) ∧
      (hasErrorAtUtm (buildUtm row rules sep sp p.2) = true →
        (buildedFields row config rules sep sp).utms.lookup p.1 =
          some (errorMessageAtUtm (buildUtm row rules sep sp p.2)))) ∧
    (hasAnyErrorAtUtms (buildUtms row config rules sep sp) = false →
      (buildedFields row config rules sep sp).urlGa =
        buildUrl row (buildUtms row config rules sep sp)) ∧
    (hasAnyErrorAtUtms (buildUtms row config rules sep sp) = true →
      (buildedFields row config rules sep sp).urlGa = sentinel) := by
  have hany := hasAnyErrorAtUtms_buildUtms row config rules sep sp
  refine ⟨?_, ?_, ?_⟩
  · intro p hp
    have hl := lookup_keyed_map config
      (fun q => if hasErrorAtUtm (buildUtm row rules sep sp q.2)
        then errorMessageAtUtm (buildUtm row rules sep sp q.2)
        else (buildUtm row rules sep sp q.2).value) hnd p hp
    constructor
    · intro hne
      rw [buildedFields_eq, hl]
      simp [hne]
    · intro he
      rw [buildedFields_eq, hl]
      simp [he]
  · intro hno
    rw [hany] at hno
    rw [buildedFields_eq]
    simp [hno]
  · intro hyes
    rw [hany] at hyes
    rw [buildedFields_eq]
    simp [hyes]

/-- C10: the output mapping has exactly the config's parameter names
as keys, in config order. -/
theorem c10_keys_match_config (row : CsvRow) (config : UtmConfig)
    (rules : ValidationRules) (sep : String) (sp : Char) :
    (buildedFields row config rules sep sp).utms.map Prod.fst =
      config.map Prod.fst := by
  rw [buildedFields_eq]
  rw [List.map_map]
  apply List.map_congr_left
  intro p _
  rfl

end GAModel

namespace GAModel

/-- Looking a configured key up in the per-entry image of the config
always finds some value, duplicates or not. -/
theorem lookup_map_exists {β γ : Type} (l : List (String × β)) (g : String × β → γ)
    (p : String × β) (hp : p ∈ l) :
    ∃ v, (l.map fun q => (q.1, g q)).lookup p.1 = some v := by
  induction l with
  | nil => cases hp
  | cons q t ih =>
    show ∃ v, List.lookup p.1 ((q.1, g q) :: t.map fun r => (r.1, g r)) = some v
    cases hbeq : (p.1 == q.1) with
    | true => exact ⟨g q, by simp [List.lookup, hbeq]⟩
    | false =>
      rcases List.mem_cons.mp hp with rfl | hmem
      · simp at hbeq
      · obtain ⟨v, hv⟩ := ih hmem
        exact ⟨v, by simp [List.lookup, hbeq, hv]⟩

/-- C3 is false on the code: a present value that fails its validation
rule is still appended to the parameter's accumulator and composed
value (line 88 runs unconditionally after the validation branch).
Column "a" holds "bad", its rule accepts only "good", yet the
accumulator reads "bad_" and the composed value "bad". -/
theorem c3_counterexample :
    failsRule [("url", "u"), ("a", "bad")] [("a", fun s => s == "good")] "a" = true ∧
    ((["a"] : List String).foldl
        (processColumn [("url", "u"), ("a", "bad")] [("a", fun s => s == "good")] "_")
        initUtmState).utmString = "bad_" ∧
    (buildUtm [("url", "u"), ("a", "bad")] [("a", fun s => s == "good")] "_" '-'
        ["a"]).value = "bad" := by
  refine ⟨by decide, by decide, by decide⟩

/-- C3 amended: a column's value is appended to the parameter's
accumulator exactly when the missing-value check passed — the
validation check plays no part in what is appended, only in the error
flags. -/
theorem c3_amended_accumulator (row : CsvRow) (rules : ValidationRules)
    (sep : String) (cols : List String) :
    (cols.foldl (processColumn row rules sep) initUtmState).utmString =
      strJoin (cols.map fun c =>
        if missingIn row c then "" else colValue row c ++ sep) := by
  rw [foldl_processColumn]
  simp [initUtmState, String.empty_append]

/-- C5: the builder is total — every configured parameter receives an
output entry and `url ga` is always a string; a row with no `url`
field yields the sentinel or a (malformed) URL beginning
"undefined?". -/
theorem c5_total_even_without_url (row : CsvRow) (config : UtmConfig)
    (rules : ValidationRules) (sep : String) (sp : Char)
    (h : row.lookup "url" = none) :
    (∀ p ∈ config, ∃ s,
        (buildedFields row config rules sep sp).utms.lookup p.1 = some s) ∧
    ((buildedFields row config rules sep sp).urlGa = sentinel ∨
      ∃ rest, (buildedFields row config rules sep sp).urlGa = "undefined?" ++ rest) := by
  constructor
  · intro p hp
    rw [buildedFields_eq]
    exact lookup_map_exists config _ p hp
  · rw [buildedFields_eq]
    cases hc : (config.any fun p => hasErrorAtUtm (buildUtm row rules sep sp p.2)) with
    | true => left; simp
    | false =>
      right
      simp only [Bool.false_eq_true, if_false]
      rw [buildUrl_eq, h]
      refine ⟨joinWith "&"
        ((buildUtms row config rules sep sp).map fun p => p.1 ++ "=" ++ p.2.value), ?_⟩
      have h2 : jsShow none ++ "?" = "undefined?" := by decide
      rw [h2]

/-- C7: a column whose value is empty or absent triggers exactly the
undefined-parameter error — the validation flag and message are left
untouched, and the outcome does not depend on the validation rules at
all (the rule is never evaluated on the missing value). -/
theorem c7_missing_value_skips_validation (row : CsvRow)
    (rules rules' : ValidationRules) (sep : String) (st : UtmState)
    (c : String) (h : missingIn row c = true) :
    processColumn row rules sep st c =
      { st with hasUndef := true
                undefMsg := st.undefMsg ++ " " ++ c ++ "," } ∧
    processColumn row rules sep st c = processColumn row rules' sep st c := by
  refine ⟨processColumn_missing row rules sep st c h, ?_⟩
  rw [processColumn_missing row rules sep st c h,
    processColumn_missing row rules' sep st c h]

/-- C8: permuting the config's parameters changes no individual
parameter's value or error state — each parameter still maps to the
very same `UtmResult` — and the pairs of the composed URL follow the
(permuted) config key order deterministically. -/
theorem c8_config_order_independence (row : CsvRow) (rules : ValidationRules)
    (sep : String) (sp : Char) (config config' : UtmConfig)
    (hperm : config.Perm config') (hnd : (config.map Prod.fst).Nodup) :
    (∀ p ∈ config,
        (buildUtms row config rules sep sp).lookup p.1 =
          some (buildUtm row rules sep sp p.2) ∧
        (buildUtms row config' rules sep sp).lookup p.1 =
          some (buildUtm row rules sep sp p.2)) ∧
    (buildUtms row config rules sep sp).Perm (buildUtms row config' rules sep sp) ∧
    buildUrl row (buildUtms row config' rules sep sp) =
      jsShow (row.lookup "url") ++ "?" ++
        joinWith "&" (config'.map fun p =>
          p.1 ++ "=" ++ (buildUtm row rules sep sp p.2).value) := by
  have hnd' : (config'.map Prod.fst).Nodup := ((hperm.map Prod.fst).nodup_iff).mp hnd
  refine ⟨?_, ?_, ?_⟩
  · intro p hp
    exact ⟨lookup_keyed_map config _ hnd p hp,
      lookup_keyed_map config' _ hnd' p (hperm.mem_iff.mp hp)⟩
  · exact hperm.map _
  · rw [buildUrl_eq]
    unfold buildUtms
    rw [List.map_map]
    have hm : config'.map ((fun p : String × UtmResult => p.1 ++ "=" ++ p.2.value) ∘
        (fun p : String × List String => (p.1, buildUtm row rules sep sp p.2))) =
        config'.map (fun p => p.1 ++ "=" ++ (buildUtm row rules sep sp p.2).value) := by
      apply List.map_congr_left
      intro p _
      rfl
    rw [hm]

/-- C9: the builder is deterministic and stateless — constructing from
equal inputs yields equal constructor states and equal
`buildedFields`. -/
theorem c9_deterministic_build (row row' : CsvRow) (config config' : UtmConfig)
    (rules rules' : ValidationRules) (sep sep' : String) (sp sp' : Char)
    (h1 : row = row') (h2 : config = config') (h3 : rules = rules')
    (h4 : sep = sep') (h5 : sp = sp') :
    construct row config rules sep sp = construct row' config' rules' sep' sp' ∧
    buildedFieldsOf (construct row config rules sep sp) =
      buildedFieldsOf (construct row' config' rules' sep' sp') := by
  subst h1 h2 h3 h4 h5
  exact ⟨rfl, rfl⟩

end GAModel

namespace GAModel

/-! ## Concrete sample inputs for the witnesses -/

/-- The spec's scenario row. -/
def rowA : CsvRow := [("url", "http://x.com"), ("source", "google"), ("medium", "cpc")]

/-- The spec's scenario config. -/
def cfgA : UtmConfig := [("utm_source", ["source"]), ("utm_medium", ["medium"])]

/-- The scenario row with `medium` missing. -/
def rowB : CsvRow := [("url", "http://x.com"), ("source", "google")]

/-- A row with no `url` field at all. -/
def rowC : CsvRow := [("source", "google")]

/-- A one-parameter config. -/
def cfgB : UtmConfig := [("utm_source", ["source"])]

/-- `cfgA` with its two parameters swapped. -/
def cfgASwap : UtmConfig := [("utm_medium", ["medium"]), ("utm_source", ["source"])]

/-- Witness for C1 at the spec's scenario, including the literal
scenario URL. -/
theorem c1_witness :
    ((cfgA.map Prod.fst).Nodup ∧
      (∀ p ∈ cfgA, ∀ c ∈ p.2,
        missingIn rowA c = false ∧ failsRule rowA [] c = false)) ∧
    ((∀ p ∈ cfgA, (buildedFields rowA cfgA [] "_" '-').utms.lookup p.1 =
        some (specUtmValue rowA "_" '-' p.2)) ∧
      (buildedFields rowA cfgA [] "_" '-').urlGa =
        specUrl rowA (cfgA.map fun p => (p.1, specUtmValue rowA "_" '-' p.2))) ∧
    (buildedFields rowA cfgA [] "_" '-').urlGa =
      "http://x.com?utm_source=google&utm_medium=cpc" :=
  ⟨⟨by decide, by decide⟩,
    c1_clean_build_values_and_url rowA cfgA [] "_" '-' (by decide) (by decide),
    by decide⟩

/-- Witness for C2: the scenario row missing `medium`. -/
theorem c2_witness :
    ((cfgA.map Prod.fst).Nodup ∧ ("utm_medium", ["medium"]) ∈ cfgA ∧
      "medium" ∈ (["medium"] : List String) ∧ missingIn rowB "medium" = true) ∧
    ((∃ msg, (buildedFields rowB cfgA [] "_" '-').utms.lookup "utm_medium" = some msg ∧
        msg ≠ "" ∧ ∃ a b, msg = a ++ "medium" ++ b) ∧
      (buildedFields rowB cfgA [] "_" '-').urlGa = sentinel) :=
  ⟨⟨by decide, by decide, by decide, by decide⟩,
    c2_missing_column_gives_error rowB cfgA [] "_" '-' (by decide)
      ("utm_medium", ["medium"]) (by decide) "medium" (by decide) (by decide)⟩

/-- Witness for C4 on the clean scenario inputs. -/
theorem c4_witness :
    (cfgA.map Prod.fst).Nodup ∧
    ((∀ p ∈ cfgA,
        (hasErrorAtUtm (buildUtm rowA [] "_" '-' p.2) = false →
          (buildedFields rowA cfgA [] "_" '-').utms.lookup p.1 =
            some (buildUtm rowA [] "_" '-' p.2).value) ∧
        (hasErrorAtUtm (buildUtm rowA [] "_" '-' p.2) = true →
          (buildedFields rowA cfgA [] "_" '-').utms.lookup p.1 =
            some (errorMessageAtUtm (buildUtm rowA [] "_" '-' p.2)))) ∧
      (hasAnyErrorAtUtms (buildUtms rowA cfgA [] "_" '-') = false →
        (buildedFields rowA cfgA [] "_" '-').urlGa =
          buildUrl rowA (buildUtms rowA cfgA [] "_" '-')) ∧
      (hasAnyErrorAtUtms (buildUtms rowA cfgA [] "_" '-') = true →
        (buildedFields rowA cfgA [] "_" '-').urlGa = sentinel)) :=
  ⟨by decide, c4_value_or_error_dichotomy rowA cfgA [] "_" '-' (by decide)⟩

/-- Witness for C5: a row with no `url` key still builds, with an
"undefined?"-prefixed URL. -/
theorem c5_witness :
    rowC.lookup "url" = none ∧
    ((∀ p ∈ cfgB, ∃ s,
        (buildedFields rowC cfgB [] "_" '-').utms.lookup p.1 = some s) ∧
      ((buildedFields rowC cfgB [] "_" '-').urlGa = sentinel ∨
        ∃ rest, (buildedFields rowC cfgB [] "_" '-').urlGa = "undefined?" ++ rest)) :=
  ⟨by decide, c5_total_even_without_url rowC cfgB [] "_" '-' (by decide)⟩

/-- Witness for C6: the missing-`medium` scenario's error message. -/
theorem c6_witness :
    ((cfgA.map Prod.fst).Nodup ∧ ("utm_medium", ["medium"]) ∈ cfgA ∧
      hasErrorAtUtm (buildUtm rowB [] "_" '-' ["medium"]) = true) ∧
    (buildedFields rowB cfgA [] "_" '-').utms.lookup "utm_medium" =
      some (joinWith " - "
        ((if (["medium"] : List String).any (missingIn rowB)
          then [specUndefMsg rowB ["medium"]] else []) ++
         (if (["medium"] : List String).any (failsRule rowB [])
          then [specValidMsg rowB [] ["medium"]] else []))) :=
  ⟨⟨by decide, by decide, by decide⟩,
    c6_error_message_shape rowB cfgA [] "_" '-' (by decide)
      ("utm_medium", ["medium"]) (by decide) (by decide)⟩

/-- Witness for C7: a missing column under an always-rejecting rule
still raises no validation error. -/
theorem c7_witness :
    missingIn rowB "medium" = true ∧
    (processColumn rowB [("medium", fun _ => false)] "_" initUtmState "medium" =
        { initUtmState with
          hasUndef := true
          undefMsg := initUtmState.undefMsg ++ " " ++ "medium" ++ "," } ∧
      processColumn rowB [("medium", fun _ => false)] "_" initUtmState "medium" =
        processColumn rowB [] "_" initUtmState "medium") :=
  ⟨by decide, c7_missing_value_skips_validation rowB
    [("medium", fun _ => false)] [] "_" initUtmState "medium" (by decide)⟩

/-- Witness for C8: swapping the scenario config's two parameters. -/
theorem c8_witness :
    (cfgA.Perm cfgASwap ∧ (cfgA.map Prod.fst).Nodup) ∧
    ((∀ p ∈ cfgA,
        (buildUtms rowA cfgA [] "_" '-').lookup p.1 =
          some (buildUtm rowA [] "_" '-' p.2) ∧
        (buildUtms rowA cfgASwap [] "_" '-').lookup p.1 =
          some (buildUtm rowA [] "_" '-' p.2)) ∧
      (buildUtms rowA cfgA [] "_" '-').Perm (buildUtms rowA cfgASwap [] "_" '-') ∧
      buildUrl rowA (buildUtms rowA cfgASwap [] "_" '-') =
        jsShow (rowA.lookup "url") ++ "?" ++
          joinWith "&" (cfgASwap.map fun p =>
            p.1 ++ "=" ++ (buildUtm rowA [] "_" '-' p.2).value)) :=
  ⟨⟨by decide, by decide⟩,
    c8_config_order_independence rowA [] "_" '-' cfgA cfgASwap (by decide) (by decide)⟩

/-- Witness for C9 at the scenario inputs. -/
theorem c9_witness :
    rowA = rowA ∧
    (construct rowA cfgA [] "_" '-' = construct rowA cfgA [] "_" '-' ∧
      buildedFieldsOf (construct rowA cfgA [] "_" '-') =
        buildedFieldsOf (construct rowA cfgA [] "_" '-')) :=
  ⟨rfl, c9_deterministic_build rowA rowA cfgA cfgA [] [] "_" "_" '-' '-'
    rfl rfl rfl rfl rfl⟩

end GAModel
